import Mathlib

/- Shallow embedding of the credential-lifecycle subsystem of the
Google-auth microservice (workspace-scoped version of `src/auth.ts`,
`src/database.ts`, `src/types.ts`).  SQLite tables become Lean lists,
`Date.now()` becomes an explicit `now : Int` argument, the Google
provider client becomes an explicit refresh outcome argument, and
JavaScript string/number truthiness is modelled explicitly. -/

namespace GoogleAuthService

/-- JavaScript truthiness of a nullable TEXT column (`string | null`):
`null` and the empty string are falsy. -/
def truthy : Option String → Bool
  | none => false
  | some s => s != ""

/-- JavaScript truthiness of a nullable INTEGER column (`number | null`):
`null` and `0` are falsy. -/
def truthyInt : Option Int → Bool
  | none => false
  | some t => t != 0

/-- JavaScript `a || b` on nullable strings: `a` when truthy, else `b`. -/
def jsOr (a b : Option String) : Option String :=
  if truthy a then a else b

/-- SQL `COALESCE(a, b)`: `a` when it is not NULL (an empty string is
not NULL), else `b`. -/
def coalesce (a b : Option String) : Option String :=
  match a with
  | some x => some x
  | none => b

/-- One row of the v1 `tokens` table
(`src/database.ts`, `createTokensTableV1`). -/
structure TokenRow where
  userId : Nat
  workspaceId : Nat
  workspaceSlug : String
  agentId : String
  service : String
  accessToken : Option String
  refreshToken : Option String
  expiryDate : Option Int
  scopes : Option String
  connectionId : Option String
  updatedAt : Int
deriving Repr, DecidableEq

/-- The `WHERE user_id=? AND workspace_id=? AND agent_id=? AND service=?`
predicate, which is also the `ON CONFLICT` target of `upsertTokens`. -/
def rowMatches (userId workspaceId : Nat) (agentId service : String) (r : TokenRow) : Bool :=
  r.userId == userId && r.workspaceId == workspaceId && r.agentId == agentId && r.service == service

/-- Arguments of `upsertTokens` (`src/database.ts`). -/
structure UpsertParams where
  userId : Nat
  workspaceId : Nat
  workspaceSlug : String
  agentId : String
  service : String
  accessToken : Option String
  refreshToken : Option String
  expiryDate : Option Int
  scopes : Option String
  connectionId : Option String
deriving Repr, DecidableEq

/-- The `DO UPDATE SET` clause of `upsertTokens`: every field is
overwritten from the excluded row except `refresh_token`, which is
`COALESCE(excluded.refresh_token, tokens.refresh_token)`. -/
def applyUpdate (p : UpsertParams) (now : Int) (r : TokenRow) : TokenRow :=
  { r with
    accessToken := p.accessToken
    refreshToken := coalesce p.refreshToken r.refreshToken
    expiryDate := p.expiryDate
    scopes := p.scopes
    workspaceSlug := p.workspaceSlug
    connectionId := p.connectionId
    updatedAt := now }

/-- The freshly inserted row of `upsertTokens` when no row conflicts. -/
def rowOfParams (p : UpsertParams) (now : Int) : TokenRow :=
  { userId := p.userId
    workspaceId := p.workspaceId
    workspaceSlug := p.workspaceSlug
    agentId := p.agentId
    service := p.service
    accessToken := p.accessToken
    refreshToken := p.refreshToken
    expiryDate := p.expiryDate
    scopes := p.scopes
    connectionId := p.connectionId
    updatedAt := now }

/-- `upsertTokens` (`src/database.ts`): `INSERT ... ON CONFLICT(user_id,
workspace_id, agent_id, service) DO UPDATE`.  On conflict the existing
row is updated in place, otherwise a new row is appended. -/
def upsertTokens (db : List TokenRow) (p : UpsertParams) (now : Int) : List TokenRow :=
  if db.any (rowMatches p.userId p.workspaceId p.agentId p.service) then
    db.map fun r =>
      if rowMatches p.userId p.workspaceId p.agentId p.service r then applyUpdate p now r else r
  else
    db ++ [rowOfParams p now]

/-- `getTokenRow` (`src/database.ts`): point lookup on the four-part key. -/
def getTokenRow (db : List TokenRow) (userId workspaceId : Nat) (agentId service : String) : Option TokenRow :=
  db.find? (rowMatches userId workspaceId agentId service)

/-- `deleteAllTokensForUser` deletes from `tokens` alone:
`DELETE FROM tokens WHERE user_id=?`. -/
def deleteTokensOfUser (db : List TokenRow) (userId : Nat) : List TokenRow :=
  db.filter fun r => !(r.userId == userId)

/-- The comparison behind `ORDER BY agent_id ASC, service ASC`:
lexicographic on the `(agent_id, service)` pair. -/
def pairLe (a b : String × String) : Bool :=
  decide (a.1 < b.1) || (decide (a.1 = b.1) && decide (a.2 ≤ b.2))

/-- `listConnections` (`src/database.ts`): `SELECT agent_id, service FROM
tokens WHERE user_id=? AND workspace_id=? AND refresh_token IS NOT NULL
AND refresh_token != '' GROUP BY agent_id, service ORDER BY agent_id ASC,
service ASC`.  Filter, project, deduplicate, sort. -/
def listConnections (db : List TokenRow) (userId workspaceId : Nat) : List (String × String) :=
  ((db.filter fun r =>
      r.userId == userId && r.workspaceId == workspaceId && truthy r.refreshToken).map
    fun r => (r.agentId, r.service)).dedup.mergeSort pairLe

/-- One row of the `sessions` table (`src/database.ts`). -/
structure Session where
  id : Nat
  userId : Nat
  refreshTokenHash : String
  createdAt : Int
  expiresAt : Int
  revokedAt : Option Int
  lastUsedAt : Option Int
deriving Repr, DecidableEq

/-- The `sessions` table plus its AUTOINCREMENT counter. -/
structure SessionStore where
  sessions : List Session
  nextId : Nat
deriving Repr, DecidableEq

/-- `findSessionByRefreshHash` (`src/database.ts`):
`SELECT ... FROM sessions WHERE refresh_token_hash=?`. -/
def findSessionByRefreshHash (sessions : List Session) (hash : String) : Option Session :=
  sessions.find? fun s => s.refreshTokenHash == hash

/-- `touchSession` (`src/database.ts`):
`UPDATE sessions SET last_used_at=? WHERE id=?`. -/
def touchSession (sessions : List Session) (id : Nat) (now : Int) : List Session :=
  sessions.map fun s => if s.id == id then { s with lastUsedAt := some now } else s

/-- `revokeSession` (`src/database.ts`):
`UPDATE sessions SET revoked_at=?, last_used_at=? WHERE id=?`. -/
def revokeSession (sessions : List Session) (id : Nat) (now : Int) : List Session :=
  sessions.map fun s =>
    if s.id == id then { s with revokedAt := some now, lastUsedAt := some now } else s

/-- `createSession` (`src/database.ts`): INSERT of a fresh session row
with an AUTOINCREMENT id; `revoked_at` and `last_used_at` start NULL. -/
def createSession (st : SessionStore) (userId : Nat) (refreshTokenHash : String) (expiresAt createdAt : Int) : SessionStore :=
  { sessions := st.sessions ++
      [{ id := st.nextId, userId := userId, refreshTokenHash := refreshTokenHash,
         createdAt := createdAt, expiresAt := expiresAt, revokedAt := none, lastUsedAt := none }]
    nextId := st.nextId + 1 }

/-- Thirty days in milliseconds, the session lifetime of
`createRefreshSession` (`src/auth.ts`). -/
def thirtyDaysMs : Int := 30 * 24 * 60 * 60 * 1000

/-- `createRefreshSession` (`src/auth.ts`).  The raw token generation
(`randomBytes(48).toString("base64url")`) and its SHA-256 hex hash are
nondeterministic or cryptographic, so the fresh raw token `newToken` and
the hash function `h` are explicit arguments; only `h newToken` is
persisted, the raw token is returned to the caller. -/
def createRefreshSession (h : String → String) (newToken : String) (now : Int) (st : SessionStore) (userId : Nat) : (String × Int) × SessionStore :=
  let expiresAt := now + thirtyDaysMs
  ((newToken, expiresAt), createSession st userId (h newToken) expiresAt now)

/-- Result of a successful `rotateRefreshSession`. -/
structure RotateResult where
  userId : Nat
  refreshToken : String
  expiresAt : Int
deriving Repr, DecidableEq

/-- `rotateRefreshSession` (`src/auth.ts`): hash the input, look up the
session; `null` when absent, revoked (JS-truthy `revoked_at`) or past
expiry; otherwise touch and revoke the found session and create a fresh
one for the same user.  `now` is the `Date.now()` read at the start of
the call and `now2` the one inside `createRefreshSession`. -/
def rotateRefreshSession (h : String → String) (newToken : String) (now now2 : Int) (st : SessionStore) (refreshToken : String) : Option RotateResult × SessionStore :=
  let hash := h refreshToken
  match findSessionByRefreshHash st.sessions hash with
  | none => (none, st)
  | some session =>
    if truthyInt session.revokedAt then (none, st)
    else if decide (session.expiresAt ≤ now) then (none, st)
    else
      let afterTouch : SessionStore :=
        { st with sessions := touchSession st.sessions session.id now }
      let afterRevoke : SessionStore :=
        { afterTouch with sessions := revokeSession afterTouch.sessions session.id now }
      let next := createRefreshSession h newToken now2 afterRevoke session.userId
      (some { userId := session.userId, refreshToken := next.1.1, expiresAt := next.1.2 }, next.2)

/-- The credential object returned by the provider client's
`refreshAccessToken` (optional fields, as in `googleapis`). -/
structure Credentials where
  accessToken : Option String
  refreshToken : Option String
  expiryDate : Option Int
  scope : Option String
deriving Repr, DecidableEq

/-- Outcome of one `getValidAccessToken` call: the returned value (or the
propagated provider exception of type `ε`), the `tokens` table after the
call, and whether the provider client's refresh was invoked. -/
structure TokenOutcome (ε : Type) where
  result : Except ε (Option String)
  db : List TokenRow
  invokedProvider : Bool

/-- The `upsertTokens` argument written back by `getValidAccessToken`
after a successful provider refresh (`src/auth.ts`): JS `||` fallbacks
for access token and scopes, `credentials.refresh_token || null`,
expiry kept from the row when the provider omits it, and the row's
workspace metadata and connection id preserved. -/
def refreshWriteParams (userId : Nat) (service : String) (row : TokenRow) (credentials : Credentials) : UpsertParams :=
  { userId := userId
    workspaceId := row.workspaceId
    workspaceSlug := row.workspaceSlug
    agentId := row.agentId
    service := service
    accessToken := jsOr credentials.accessToken (jsOr row.accessToken none)
    refreshToken := jsOr credentials.refreshToken none
    expiryDate := match credentials.expiryDate with
      | some d => some d
      | none => row.expiryDate
    scopes := jsOr credentials.scope (jsOr row.scopes none)
    connectionId := row.connectionId }

/-- `getValidAccessToken` (`src/auth.ts`): look up the row; `null` when
absent or its refresh token is JS-falsy; cache hit when not expired
(30 s skew, absent or zero expiry counts as expired) and a JS-truthy
access token is cached; otherwise invoke the provider refresh
(`refreshOutcome` stands for that external call), rethrow its failure
unchanged, or write the refreshed credentials back and return the new
access token. -/
def getValidAccessToken {ε : Type} (refreshOutcome : Except ε Credentials)
    (db : List TokenRow) (now : Int)
    (userId workspaceId : Nat) (agentId service : String) : TokenOutcome ε :=
  match getTokenRow db userId workspaceId agentId service with
  | none => { result := .ok none, db := db, invokedProvider := false }
  | some row =>
    if !(truthy row.refreshToken) then
      { result := .ok none, db := db, invokedProvider := false }
    else
      let expiresAt := row.expiryDate.getD 0
      let isExpired := expiresAt == 0 || decide (expiresAt ≤ now + 30000)
      if !isExpired && truthy row.accessToken then
        { result := .ok row.accessToken, db := db, invokedProvider := false }
      else
        match refreshOutcome with
        | .error e => { result := .error e, db := db, invokedProvider := true }
        | .ok credentials =>
          { result := .ok (jsOr credentials.accessToken (jsOr row.accessToken none))
            db := upsertTokens db (refreshWriteParams userId service row credentials) now
            invokedProvider := true }

/-- One row of the legacy `tokens` table, keyed on `(user_id, service)`
(`src/database.ts` before the v1 migration). -/
structure LegacyTokenRow where
  userId : Nat
  service : String
  accessToken : Option String
  refreshToken : Option String
  expiryDate : Option Int
  scopes : Option String
  updatedAt : Int
deriving Repr, DecidableEq

/-- The `tokens` table in either of its two persisted shapes. -/
inductive TokensTable where
  | legacy (rows : List LegacyTokenRow)
  | v1 (rows : List TokenRow)
deriving Repr, DecidableEq

/-- Persisted schema state: the `PRAGMA user_version` marker and the
`tokens` table (absent when never created). -/
structure DBSchemaState where
  userVersion : Nat
  tokens : Option TokensTable
deriving Repr, DecidableEq

/-- The `INSERT INTO tokens_new ... SELECT` row transform of
`migrateTokensToV1`: fixed placeholders `workspace_id = 0`,
`workspace_slug = 'legacy'`, `agent_id = 'legacy'`, `connection_id =
NULL`, all other columns copied. -/
def migrateLegacyRow (r : LegacyTokenRow) : TokenRow :=
  { userId := r.userId
    workspaceId := 0
    workspaceSlug := "legacy"
    agentId := "legacy"
    service := r.service
    accessToken := r.accessToken
    refreshToken := r.refreshToken
    expiryDate := r.expiryDate
    scopes := r.scopes
    connectionId := none
    updatedAt := r.updatedAt }

/-- The same `INSERT ... SELECT` applied to a table that already has the
v1 columns: it reads only the legacy columns and re-applies the
placeholders. -/
def reshapeV1Row (r : TokenRow) : TokenRow :=
  { userId := r.userId
    workspaceId := 0
    workspaceSlug := "legacy"
    agentId := "legacy"
    service := r.service
    accessToken := r.accessToken
    refreshToken := r.refreshToken
    expiryDate := r.expiryDate
    scopes := r.scopes
    connectionId := none
    updatedAt := r.updatedAt }

/-- `migrateTokensToV1` (`src/database.ts`): no-op when `user_version ≥ 1`;
create an empty v1 table when `tokens` does not exist; otherwise rebuild
`tokens` through the shadow table `tokens_new` with placeholder
workspace/agent values, and set the version to 1 as the last step. -/
def migrateTokensToV1 (st : DBSchemaState) : DBSchemaState :=
  if st.userVersion ≥ 1 then st
  else
    match st.tokens with
    | none => { userVersion := 1, tokens := some (.v1 []) }
    | some (.legacy rows) => { userVersion := 1, tokens := some (.v1 (rows.map migrateLegacyRow)) }
    | some (.v1 rows) => { userVersion := 1, tokens := some (.v1 (rows.map reshapeV1Row)) }

/-- The four-part composite key whose uniqueness the v1 schema declares
(`UNIQUE(user_id, workspace_id, agent_id, service)`). -/
def tokenKey (r : TokenRow) : Nat × Nat × String × String :=
  (r.userId, r.workspaceId, r.agentId, r.service)

/-- The legacy composite key (`UNIQUE(user_id, service)`). -/
def legacyKey (r : LegacyTokenRow) : Nat × String :=
  (r.userId, r.service)

/-- One row of the `users` table. -/
structure User where
  id : Nat
  email : Option String
  name : Option String
  picture : Option String
  createdAt : Int
deriving Repr, DecidableEq

/-- The whole persistent store: `users`, `tokens` (v1 shape) and
`sessions`. -/
structure Store where
  users : List User
  tokens : List TokenRow
  sessions : List Session
deriving Repr, DecidableEq

/-- `getUser` (`src/database.ts`): `SELECT ... FROM users WHERE id=?`. -/
def getUser (users : List User) (userId : Nat) : Option User :=
  users.find? fun u => u.id == userId

/-- `deleteAllTokensForUser` (`src/database.ts`) lifted to the whole
store: the single `DELETE FROM tokens WHERE user_id=?` statement touches
only the `tokens` table. -/
def deleteAllTokensForUser (st : Store) (userId : Nat) : Store :=
  { st with tokens := deleteTokensOfUser st.tokens userId }

/-- The payload object signed by `issueJwt` (`src/auth.ts`): the literal
`{ userId, email: u?.email ?? null }`; mirrors the `JwtPayload` type of
`src/types.ts` after `grantedServices` was removed. -/
structure JwtPayload where
  userId : Nat
  email : Option String
deriving Repr, DecidableEq

/-- `issueJwt` (`src/auth.ts`) up to the signing step: the payload it
signs, built from the `users` table alone. -/
def issueJwtPayload (st : Store) (userId : Nat) : JwtPayload :=
  let u := getUser st.users userId
  { userId := userId
    email := match u with
      | some user => user.email
      | none => none }

/-- JavaScript `String.prototype.toLowerCase` on the character
sequence. -/
def strToLower (s : String) : String :=
  ⟨s.data.map Char.toLower⟩

/-- JavaScript `String.prototype.endsWith` on the character sequence. -/
def strEndsWith (s t : String) : Bool :=
  t.data.isSuffixOf s.data

/-- JavaScript `hostname.slice(0, hostname.length - n)`: drop the last
`n` characters. -/
def strDropRight (s : String) (n : Nat) : String :=
  ⟨s.data.take (s.data.length - n)⟩

/-- JavaScript `String.prototype.includes(".")` on the character
sequence. -/
def strContainsDot (s : String) : Bool :=
  s.data.contains '.'

/-- The components of a WHATWG-parsed URL that `validateReturnTo` reads:
`protocol` keeps its trailing colon, `port` is the empty string when no
port is spelled out, `origin` is scheme+host+port. -/
structure URLParts where
  protocol : String
  hostname : String
  port : String
  origin : String
deriving Repr, DecidableEq

/-- The two allowlists `validateReturnTo` consults
(`config.allowedReturnOrigins` and `config.allowedReturnHostSuffixes`). -/
structure ReturnToConfig where
  allowedReturnOrigins : List String
  allowedReturnHostSuffixes : List String
deriving Repr, DecidableEq

/-- The body of the `for (const suffix of ...)` loop of
`validateReturnTo`: the (lowercased) hostname ends with `.<suffix>` and
what precedes the suffix is a non-empty label with no further dot. -/
def suffixAccepts (hostname suffix : String) : Bool :=
  let suffixWithDot := "." ++ suffix
  if strEndsWith hostname suffixWithDot then
    let sub := strDropRight hostname suffixWithDot.length
    if sub == "" then false
    else if strContainsDot sub then false
    else true
  else false

/-- `validateReturnTo` (`src/auth.ts`): `parseOutcome` is the result of
`new URL(returnTo)` (`none` when the constructor throws).  Falsy input
is rejected; with no allowlist configured at all everything is accepted;
an exact origin match is accepted; otherwise, when host suffixes are
configured, accept only HTTPS on the default port with a hostname that
`suffixAccepts` some configured suffix. -/
def validateReturnTo (cfg : ReturnToConfig) (returnTo : String) (parseOutcome : Option URLParts) : Option String :=
  if returnTo == "" then none
  else
    match parseOutcome with
    | none => none
    | some u =>
      let origin := u.origin
      if !(decide (0 < cfg.allowedReturnOrigins.length) || decide (0 < cfg.allowedReturnHostSuffixes.length)) then
        some returnTo
      else if cfg.allowedReturnOrigins.contains origin then
        some returnTo
      else if decide (0 < cfg.allowedReturnHostSuffixes.length) then
        let hostname := strToLower u.hostname
        if u.protocol != "https:" then none
        else if u.port != "" && u.port != "443" then none
        else if cfg.allowedReturnHostSuffixes.any (suffixAccepts hostname) then some returnTo
        else none
      else none

/- ===================== general helper lemmas ===================== -/

/-- Mapping a function that does not change the predicate's verdict
commutes with `find?`. -/
theorem find_map_invariant {α : Type} (f : α → α) (p : α → Bool)
    (hp : ∀ x, p (f x) = p x) (l : List α) :
    (l.map f).find? p = (l.find? p).map f := by
  rw [List.find?_map, show p ∘ f = p from funext hp]

/-- A found element stays found (and gets mapped) under such a map. -/
theorem find_map_invariant_some {α : Type} (f : α → α) (p : α → Bool)
    (hp : ∀ x, p (f x) = p x) (l : List α) (a : α) (h : l.find? p = some a) :
    (l.map f).find? p = some (f a) := by
  rw [find_map_invariant f p hp l, h]
  rfl

/- ===================== C1 ===================== -/

/-- C1.  The payload signed by `issueJwt` carries only the user's id and
email: it is a two-field record whose fields are the requested id and the
user row's email, and it is entirely independent of the `tokens`
(grants) and `sessions` tables, so no authorization or grant data — in
particular no list of granted services — is embedded in the token. -/
theorem issueJwt_payload_only_user_identity :
    ∀ (st : Store) (userId : Nat) (tokens2 : List TokenRow) (sessions2 : List Session),
      issueJwtPayload { users := st.users, tokens := tokens2, sessions := sessions2 } userId
          = issueJwtPayload st userId
        ∧ (issueJwtPayload st userId).userId = userId
        ∧ (issueJwtPayload st userId).email = (getUser st.users userId).bind User.email := by
  intro st userId tokens2 sessions2
  refine ⟨rfl, rfl, ?_⟩
  simp only [issueJwtPayload]
  cases getUser st.users userId <;> rfl

/- ===================== C9 ===================== -/

/-- C9.  `deleteAllConnections(userId)` removes exactly the connection
rows of that user — across all workspaces, agents and services — keeps
every other user's connection rows (in order), and leaves the `users`
and `sessions` tables untouched. -/
theorem deleteAllConnections_user_scoped_frame :
    ∀ (st : Store) (userId : Nat),
      (∀ r : TokenRow,
          r ∈ (deleteAllTokensForUser st userId).tokens ↔ r ∈ st.tokens ∧ r.userId ≠ userId)
        ∧ List.Sublist (deleteAllTokensForUser st userId).tokens st.tokens
        ∧ (deleteAllTokensForUser st userId).users = st.users
        ∧ (deleteAllTokensForUser st userId).sessions = st.sessions := by
  intro st userId
  refine ⟨?_, List.filter_sublist _, rfl, rfl⟩
  intro r
  simp [deleteAllTokensForUser, deleteTokensOfUser, List.mem_filter]

/- ===================== C5 ===================== -/

/-- C5.  For every four-part key tuple, `upsertConnection` followed by
`getConnection` on the same tuple returns exactly the just-written
access token, expiry, scopes, workspace slug and connection id, and a
refresh token equal to the newly supplied value when it is non-null and
otherwise equal to the previously stored one (coalesce-on-null). -/
theorem upsert_then_get_roundtrip :
    ∀ (db : List TokenRow) (p : UpsertParams) (now : Int),
      ∃ r : TokenRow,
        getTokenRow (upsertTokens db p now) p.userId p.workspaceId p.agentId p.service = some r
          ∧ r.accessToken = p.accessToken
          ∧ r.expiryDate = p.expiryDate
          ∧ r.scopes = p.scopes
          ∧ r.workspaceSlug = p.workspaceSlug
          ∧ r.connectionId = p.connectionId
          ∧ r.refreshToken =
              (match p.refreshToken, getTokenRow db p.userId p.workspaceId p.agentId p.service with
                | some x, _ => some x
                | none, some prev => prev.refreshToken
                | none, none => none) := by
  intro db p now
  cases hany : db.any (rowMatches p.userId p.workspaceId p.agentId p.service) with
  | false =>
    have hnone : db.find? (rowMatches p.userId p.workspaceId p.agentId p.service) = none := by
      rw [List.find?_eq_none]
      intro x hx
      have := List.any_eq_false.mp hany x hx
      simpa using this
    refine ⟨rowOfParams p now, ?_, rfl, rfl, rfl, rfl, rfl, ?_⟩
    · simp only [getTokenRow, upsertTokens, hany, Bool.false_eq_true, if_false,
        List.find?_append, hnone, Option.none_or]
      simp [List.find?, rowMatches, rowOfParams]
    · simp only [getTokenRow, hnone, rowOfParams]
      cases p.refreshToken <;> rfl
  | true =>
    obtain ⟨r0, hr0⟩ := Option.isSome_iff_exists.mp
      (List.find?_isSome.mpr (by simpa using List.any_eq_true.mp hany))
    have hpred : rowMatches p.userId p.workspaceId p.agentId p.service r0 = true :=
      List.find?_some hr0
    refine ⟨applyUpdate p now r0, ?_, rfl, rfl, rfl, rfl, rfl, ?_⟩
    · simp only [getTokenRow, upsertTokens, hany, if_true]
      have hinv : ∀ x, rowMatches p.userId p.workspaceId p.agentId p.service
          (if rowMatches p.userId p.workspaceId p.agentId p.service x then applyUpdate p now x else x)
            = rowMatches p.userId p.workspaceId p.agentId p.service x := by
        intro x
        by_cases hx : rowMatches p.userId p.workspaceId p.agentId p.service x = true
        · rw [if_pos hx]
          rfl
        · rw [if_neg hx]
      have := find_map_invariant_some
        (fun x => if rowMatches p.userId p.workspaceId p.agentId p.service x then applyUpdate p now x else x)
        (rowMatches p.userId p.workspaceId p.agentId p.service) hinv db r0 hr0
      rw [this]
      simp [hpred]
    · simp only [getTokenRow, hr0, applyUpdate, coalesce]
      cases p.refreshToken <;> rfl

/- ===================== C3 ===================== -/

/-- C3.  For a stored connection with a (JS-truthy) refresh token,
`getValidAccessToken` returns the cached access token with no provider
call whenever `now < expiry − 30s` and a cached access token is present,
and it invokes the provider refresh — persisting the result on success —
whenever `now ≥ expiry − 30s` or the recorded expiry is absent or zero. -/
theorem getValidAccessToken_cache_and_refresh {ε : Type}
    (db : List TokenRow) (now : Int) (userId workspaceId : Nat) (agentId service : String)
    (row : TokenRow)
    (h1 : getTokenRow db userId workspaceId agentId service = some row)
    (h2 : truthy row.refreshToken = true)
    (hnow : 0 ≤ now) :
    (∀ e : Int, row.expiryDate = some e → now + 30000 < e → truthy row.accessToken = true →
        ∀ refreshOutcome : Except ε Credentials,
          getValidAccessToken refreshOutcome db now userId workspaceId agentId service
            = { result := .ok row.accessToken, db := db, invokedProvider := false })
      ∧ ((row.expiryDate.getD 0 = 0 ∨ row.expiryDate.getD 0 ≤ now + 30000) →
          ∀ refreshOutcome : Except ε Credentials,
            (getValidAccessToken refreshOutcome db now userId workspaceId agentId service).invokedProvider
                = true
              ∧ ∀ credentials : Credentials, refreshOutcome = .ok credentials →
                  (getValidAccessToken refreshOutcome db now userId workspaceId agentId service).db
                    = upsertTokens db (refreshWriteParams userId service row credentials) now) := by
  constructor
  · intro e he hfresh hacc refreshOutcome
    have hne : (e == 0) = false := by
      have h0 : e ≠ 0 := by omega
      simpa using h0
    have hle : decide (e ≤ now + 30000) = false := by
      rw [decide_eq_false_iff_not]
      omega
    simp [getValidAccessToken, h1, h2, he, hne, hle, hacc]
  · intro hstale refreshOutcome
    have hexp : (row.expiryDate.getD 0 == 0 || decide (row.expiryDate.getD 0 ≤ now + 30000)) = true := by
      rcases hstale with h | h
      · simp [h]
      · simp [h]
    cases refreshOutcome with
    | error e =>
      refine ⟨?_, ?_⟩
      · simp [getValidAccessToken, h1, h2, hexp]
      · intro credentials hcontra
        cases hcontra
    | ok credentials =>
      refine ⟨?_, ?_⟩
      · simp [getValidAccessToken, h1, h2, hexp]
      · intro credentials2 hok
        cases hok
        simp [getValidAccessToken, h1, h2, hexp]

/-- A concrete connection row used by the witnesses: truthy tokens,
expiry at epoch-millisecond 100000. -/
def exRow : TokenRow :=
  { userId := 1, workspaceId := 10, workspaceSlug := "ws", agentId := "A", service := "drive",
    accessToken := some "AT", refreshToken := some "RT", expiryDate := some 100000,
    scopes := some "s", connectionId := some "c", updatedAt := 0 }

/-- Witness for C3: at `now = 50000` (fresh, `50000 + 30000 < 100000`)
the cached token is returned with no provider call. -/
theorem getValidAccessToken_cache_and_refresh_witness :
    getTokenRow [exRow] 1 10 "A" "drive" = some exRow
      ∧ truthy exRow.refreshToken = true
      ∧ (0 : Int) ≤ 50000
      ∧ getValidAccessToken (ε := Unit) (.error ()) [exRow] 50000 1 10 "A" "drive"
          = { result := .ok (some "AT"), db := [exRow], invokedProvider := false } :=
  ⟨rfl, rfl, by decide,
    (getValidAccessToken_cache_and_refresh [exRow] 50000 1 10 "A" "drive" exRow rfl rfl
      (by decide)).1 100000 rfl (by decide) rfl (.error ())⟩

/- ===================== C7 ===================== -/

/-- C7.  When the provider's refresh fails, `getValidAccessToken`
propagates exactly that failure to the caller (same exception value, for
any exception type), never substitutes the stale cached access token,
and leaves the stored rows untouched. -/
theorem getValidAccessToken_propagates_provider_failure {ε : Type}
    (db : List TokenRow) (now : Int) (userId workspaceId : Nat) (agentId service : String)
    (row : TokenRow) (e : ε)
    (h1 : getTokenRow db userId workspaceId agentId service = some row)
    (h2 : truthy row.refreshToken = true)
    (h3 : (row.expiryDate.getD 0 = 0 ∨ row.expiryDate.getD 0 ≤ now + 30000)
            ∨ truthy row.accessToken = false) :
    getValidAccessToken (.error e) db now userId workspaceId agentId service
      = { result := .error e, db := db, invokedProvider := true } := by
  rcases h3 with hstale | hnoacc
  · have hexp : (row.expiryDate.getD 0 == 0 || decide (row.expiryDate.getD 0 ≤ now + 30000)) = true := by
      rcases hstale with h | h
      · simp [h]
      · simp [h]
    simp [getValidAccessToken, h1, h2, hexp]
  · simp [getValidAccessToken, h1, h2, hnoacc]

/-- Witness for C7: at `now = 70001` the stored expiry 100000 is within
the 30 s skew, so the provider is invoked and its failure `"boom"` is
rethrown with the table unchanged. -/
theorem getValidAccessToken_propagates_provider_failure_witness :
    getTokenRow [exRow] 1 10 "A" "drive" = some exRow
      ∧ truthy exRow.refreshToken = true
      ∧ exRow.expiryDate.getD 0 ≤ (70001 : Int) + 30000
      ∧ getValidAccessToken (ε := String) (.error "boom") [exRow] 70001 1 10 "A" "drive"
          = { result := .error "boom", db := [exRow], invokedProvider := true } :=
  ⟨rfl, rfl, by decide,
    getValidAccessToken_propagates_provider_failure [exRow] 70001 1 10 "A" "drive" exRow "boom"
      rfl rfl (Or.inl (Or.inr (by decide)))⟩

/- ===================== C10 ===================== -/

/-- C10.  Coalesce-on-null protects only a NULL input: upserting with
`refreshToken = ""` overwrites a previously stored non-empty refresh
token with the empty string, after which `getValidAccessToken` reports
the tuple as not connected (without any provider call and without
touching the table) and `listConnections` no longer lists the pair. -/
theorem upsert_empty_refresh_disconnects
    (db : List TokenRow) (p : UpsertParams) (now : Int) (row : TokenRow)
    (hprev : getTokenRow db p.userId p.workspaceId p.agentId p.service = some row)
    (_hful : ∃ s : String, row.refreshToken = some s ∧ s ≠ "")
    (hempty : p.refreshToken = some "") :
    (∃ r : TokenRow,
        getTokenRow (upsertTokens db p now) p.userId p.workspaceId p.agentId p.service = some r
          ∧ r.refreshToken = some "")
      ∧ (∀ (ε : Type) (refreshOutcome : Except ε Credentials) (now2 : Int),
          getValidAccessToken refreshOutcome (upsertTokens db p now) now2
              p.userId p.workspaceId p.agentId p.service
            = { result := .ok none, db := upsertTokens db p now, invokedProvider := false })
      ∧ (p.agentId, p.service) ∉ listConnections (upsertTokens db p now) p.userId p.workspaceId := by
  have hany : db.any (rowMatches p.userId p.workspaceId p.agentId p.service) = true :=
    List.any_eq_true.mpr
      ⟨row, List.mem_of_find?_eq_some hprev, List.find?_some hprev⟩
  have hinv : ∀ x, rowMatches p.userId p.workspaceId p.agentId p.service
      (if rowMatches p.userId p.workspaceId p.agentId p.service x then applyUpdate p now x else x)
        = rowMatches p.userId p.workspaceId p.agentId p.service x := by
    intro x
    by_cases hx : rowMatches p.userId p.workspaceId p.agentId p.service x = true
    · rw [if_pos hx]
      rfl
    · rw [if_neg hx]
  have hpred : rowMatches p.userId p.workspaceId p.agentId p.service row = true :=
    List.find?_some hprev
  have hfind : getTokenRow (upsertTokens db p now) p.userId p.workspaceId p.agentId p.service
      = some (applyUpdate p now row) := by
    simp only [getTokenRow, upsertTokens, hany, if_true]
    have := find_map_invariant_some
      (fun x => if rowMatches p.userId p.workspaceId p.agentId p.service x then applyUpdate p now x else x)
      (rowMatches p.userId p.workspaceId p.agentId p.service) hinv db row hprev
    rw [this]
    simp [hpred]
  have hrt : (applyUpdate p now row).refreshToken = some "" := by
    simp [applyUpdate, hempty, coalesce]
  refine ⟨⟨applyUpdate p now row, hfind, hrt⟩, ?_, ?_⟩
  · intro ε refreshOutcome now2
    simp [getValidAccessToken, hfind, truthy, hrt]
  · intro hp
    have hmem2 := List.mem_dedup.mp (List.mem_mergeSort.mp hp)
    obtain ⟨r, hrfilter, hpair⟩ := List.mem_map.mp hmem2
    obtain ⟨hrdb, hcond⟩ := List.mem_filter.mp hrfilter
    rw [Prod.mk.injEq] at hpair
    have hmapped : r ∈ db.map
        (fun x => if rowMatches p.userId p.workspaceId p.agentId p.service x then applyUpdate p now x else x) := by
      simpa only [upsertTokens, hany, if_true] using hrdb
    obtain ⟨r0, hr0db, hgr⟩ := List.mem_map.mp hmapped
    simp only [Bool.and_eq_true, beq_iff_eq] at hcond
    have hrmatch : rowMatches p.userId p.workspaceId p.agentId p.service r = true := by
      simp [rowMatches, hcond.1.1, hcond.1.2, hpair.1, hpair.2]
    by_cases h0 : rowMatches p.userId p.workspaceId p.agentId p.service r0 = true
    · rw [if_pos h0] at hgr
      have : truthy r.refreshToken = false := by
        rw [← hgr]
        simp [applyUpdate, hempty, coalesce, truthy]
      rw [this] at hcond
      exact absurd hcond.2 (by simp)
    · rw [if_neg h0] at hgr
      rw [hgr] at h0
      exact h0 hrmatch

/-- Connection-store upsert argument with an empty-string refresh token
on `exRow`'s key, used by the C10 witness. -/
def exParamsEmpty : UpsertParams :=
  { userId := 1, workspaceId := 10, workspaceSlug := "ws", agentId := "A", service := "drive",
    accessToken := some "AT4", refreshToken := some "", expiryDate := none,
    scopes := none, connectionId := none }

/-- Witness for C10 on a one-row table holding a non-empty refresh
token: after the empty-string upsert the pair disappears from
`listConnections`. -/
theorem upsert_empty_refresh_disconnects_witness :
    getTokenRow [exRow] 1 10 "A" "drive" = some exRow
      ∧ (∃ s : String, exRow.refreshToken = some s ∧ s ≠ "")
      ∧ exParamsEmpty.refreshToken = some ""
      ∧ ("A", "drive") ∉ listConnections (upsertTokens [exRow] exParamsEmpty 99) 1 10 :=
  ⟨rfl, ⟨"RT", rfl, by decide⟩, rfl,
    (upsert_empty_refresh_disconnects [exRow] exParamsEmpty 99 exRow rfl
      ⟨"RT", rfl, by decide⟩ rfl).2.2⟩

/- ===================== C6 ===================== -/

/-- C6.  From a legacy table with N rows at schema version 0, the
migration produces a table with the same N rows in order, each given the
placeholders `workspaceId = 0`, `workspaceSlug = "legacy"`, `agentId =
"legacy"` and a NULL `connectionId` while every original token field is
preserved; the migrated rows satisfy the four-part composite uniqueness
whenever the legacy rows satisfied the legacy one; the version ends at
the target 1; and a second migration run changes nothing. -/
theorem migrateTokensToV1_legacy_preserving
    (st : DBSchemaState) (rows : List LegacyTokenRow)
    (hv : st.userVersion = 0)
    (hts : st.tokens = some (.legacy rows)) :
    (migrateTokensToV1 st).userVersion = 1
      ∧ (migrateTokensToV1 st).tokens = some (.v1 (rows.map migrateLegacyRow))
      ∧ (rows.map migrateLegacyRow).length = rows.length
      ∧ (∀ r ∈ rows.map migrateLegacyRow,
          r.workspaceId = 0 ∧ r.workspaceSlug = "legacy" ∧ r.agentId = "legacy"
            ∧ r.connectionId = none)
      ∧ ((rows.map migrateLegacyRow).map fun r =>
            (r.userId, r.service, r.accessToken, r.refreshToken, r.expiryDate, r.scopes, r.updatedAt))
          = (rows.map fun r =>
            (r.userId, r.service, r.accessToken, r.refreshToken, r.expiryDate, r.scopes, r.updatedAt))
      ∧ (rows.Pairwise (fun a b => legacyKey a ≠ legacyKey b) →
          (rows.map migrateLegacyRow).Pairwise (fun a b => tokenKey a ≠ tokenKey b))
      ∧ migrateTokensToV1 (migrateTokensToV1 st) = migrateTokensToV1 st := by
  have hrun : migrateTokensToV1 st
      = { userVersion := 1, tokens := some (.v1 (rows.map migrateLegacyRow)) } := by
    simp [migrateTokensToV1, hv, hts]
  refine ⟨by rw [hrun], by rw [hrun], List.length_map rows migrateLegacyRow, ?_, ?_, ?_, ?_⟩
  · intro r hr
    obtain ⟨r0, _, hr0⟩ := List.mem_map.mp hr
    rw [← hr0]
    exact ⟨rfl, rfl, rfl, rfl⟩
  · rw [List.map_map]
    rfl
  · intro hpw
    refine List.Pairwise.map migrateLegacyRow ?_ hpw
    intro a b hne heq
    apply hne
    simp only [tokenKey, migrateLegacyRow, Prod.mk.injEq] at heq
    simp [legacyKey, Prod.mk.injEq, heq.1, heq.2.2.2]
  · rw [hrun]
    simp [migrateTokensToV1]

/-- A concrete legacy row for the C6 witness. -/
def exLegacyRow : LegacyTokenRow :=
  { userId := 3, service := "gmail", accessToken := some "a", refreshToken := some "r",
    expiryDate := none, scopes := none, updatedAt := 4 }

/-- Witness for C6 on a one-row legacy table at version 0. -/
theorem migrateTokensToV1_legacy_preserving_witness :
    ({ userVersion := 0, tokens := some (.legacy [exLegacyRow]) } : DBSchemaState).userVersion = 0
      ∧ (migrateTokensToV1 { userVersion := 0, tokens := some (.legacy [exLegacyRow]) }).userVersion = 1
      ∧ (migrateTokensToV1 { userVersion := 0, tokens := some (.legacy [exLegacyRow]) }).tokens
          = some (.v1 ([exLegacyRow].map migrateLegacyRow)) :=
  ⟨rfl,
    (migrateTokensToV1_legacy_preserving
      { userVersion := 0, tokens := some (.legacy [exLegacyRow]) } [exLegacyRow] rfl rfl).1,
    (migrateTokensToV1_legacy_preserving
      { userVersion := 0, tokens := some (.legacy [exLegacyRow]) } [exLegacyRow] rfl rfl).2.1⟩

/- ===================== C4 ===================== -/

/-- Touching then revoking the same session id is one map that sets both
timestamps on the matching rows. -/
theorem revoke_touch_eq_map (l : List Session) (id : Nat) (now : Int) :
    revokeSession (touchSession l id now) id now
      = l.map fun x =>
          if x.id == id then { x with revokedAt := some now, lastUsedAt := some now } else x := by
  simp only [touchSession, revokeSession, List.map_map]
  apply List.map_congr_left
  intro x _
  by_cases hx : x.id == id
  · simp [Function.comp, hx]
  · simp [Function.comp, hx]

/-- C4.  Session rotation is one-time-use: rotation fails (returns null,
state unchanged) when the hashed token has no session, a revoked one, or
an expired one; a first rotation of a valid unexpired session succeeds,
revokes exactly that session, and any later rotation of the same
original raw token on the resulting state fails. -/
theorem rotateRefreshSession_one_time_use :
    ∀ (h : String → String) (newToken : String) (now now2 : Int) (st : SessionStore) (raw : String),
      (findSessionByRefreshHash st.sessions (h raw) = none →
          rotateRefreshSession h newToken now now2 st raw = (none, st))
        ∧ (∀ s : Session, findSessionByRefreshHash st.sessions (h raw) = some s →
            truthyInt s.revokedAt = true →
            rotateRefreshSession h newToken now now2 st raw = (none, st))
        ∧ (∀ s : Session, findSessionByRefreshHash st.sessions (h raw) = some s →
            s.expiresAt ≤ now →
            rotateRefreshSession h newToken now now2 st raw = (none, st))
        ∧ (∀ s : Session, findSessionByRefreshHash st.sessions (h raw) = some s →
            truthyInt s.revokedAt = false →
            now < s.expiresAt →
            0 < now →
            (rotateRefreshSession h newToken now now2 st raw).1
                = some { userId := s.userId, refreshToken := newToken,
                         expiresAt := now2 + thirtyDaysMs }
              ∧ findSessionByRefreshHash
                    (rotateRefreshSession h newToken now now2 st raw).2.sessions (h raw)
                  = some { s with revokedAt := some now, lastUsedAt := some now }
              ∧ ∀ (newToken2 : String) (now3 now4 : Int),
                  (rotateRefreshSession h newToken2 now3 now4
                      (rotateRefreshSession h newToken now now2 st raw).2 raw).1 = none) := by
  intro h newToken now now2 st raw
  refine ⟨?_, ?_, ?_, ?_⟩
  · intro hfind
    simp [rotateRefreshSession, hfind]
  · intro s hfind hrev
    simp [rotateRefreshSession, hfind, hrev]
  · intro s hfind hexp
    by_cases hrev : truthyInt s.revokedAt = true
    · simp [rotateRefreshSession, hfind, hrev]
    · simp only [Bool.not_eq_true] at hrev
      simp [rotateRefreshSession, hfind, hrev, hexp]
  · intro s hfind hrev hlive hpos
    have hnotexp : decide (s.expiresAt ≤ now) = false := by
      rw [decide_eq_false_iff_not]
      omega
    have hrot : rotateRefreshSession h newToken now now2 st raw
        = (some { userId := s.userId, refreshToken := newToken, expiresAt := now2 + thirtyDaysMs },
           { sessions :=
               (revokeSession (touchSession st.sessions s.id now) s.id now) ++
                 [{ id := st.nextId, userId := s.userId, refreshTokenHash := h newToken,
                    createdAt := now2, expiresAt := now2 + thirtyDaysMs,
                    revokedAt := none, lastUsedAt := none }],
             nextId := st.nextId + 1 }) := by
      simp [rotateRefreshSession, hfind, hrev, hnotexp, createRefreshSession, createSession]
    have hmapfind : findSessionByRefreshHash
        (revokeSession (touchSession st.sessions s.id now) s.id now) (h raw)
          = some { s with revokedAt := some now, lastUsedAt := some now } := by
      rw [revoke_touch_eq_map]
      have hinv : ∀ x : Session,
          ((if x.id == s.id then { x with revokedAt := some now, lastUsedAt := some now } else x
              : Session).refreshTokenHash == h raw)
            = (x.refreshTokenHash == h raw) := by
        intro x
        by_cases hx : x.id == s.id
        · simp [hx]
        · simp [hx]
      have hfind' : List.find? (fun x => x.refreshTokenHash == h raw) st.sessions = some s := hfind
      have := find_map_invariant_some
        (fun x => if x.id == s.id then { x with revokedAt := some now, lastUsedAt := some now } else x)
        (fun x => x.refreshTokenHash == h raw) hinv st.sessions s hfind'
      simpa [findSessionByRefreshHash] using this
    have hfind2 : findSessionByRefreshHash
        (rotateRefreshSession h newToken now now2 st raw).2.sessions (h raw)
          = some { s with revokedAt := some now, lastUsedAt := some now } := by
      rw [hrot]
      simp only [findSessionByRefreshHash, List.find?_append]
      rw [show findSessionByRefreshHash
          (revokeSession (touchSession st.sessions s.id now) s.id now) (h raw)
            = List.find? (fun x => x.refreshTokenHash == h raw)
                (revokeSession (touchSession st.sessions s.id now) s.id now) from rfl] at hmapfind
      rw [hmapfind]
      rfl
    refine ⟨by rw [hrot], hfind2, ?_⟩
    intro newToken2 now3 now4
    have hrevnew : truthyInt
        ({ s with revokedAt := some now, lastUsedAt := some now } : Session).revokedAt = true := by
      simp [truthyInt]
      omega
    revert hfind2
    generalize (rotateRefreshSession h newToken now now2 st raw).2 = st2
    intro hfind2
    simp [rotateRefreshSession, hfind2, hrevnew]

/-- A concrete live session for the C4 witness (`"H-raw"` plays the
SHA-256 hash of `"raw"`). -/
def exSession : Session :=
  { id := 1, userId := 7, refreshTokenHash := "H-raw", createdAt := 0, expiresAt := 1000000,
    revokedAt := none, lastUsedAt := none }

/-- A stand-in hash function for the C4 witness. -/
def exHash : String → String := fun s => "H-" ++ s

/-- Witness for C4: a first rotation at `now = 500` succeeds and a
second rotation of the same raw token always fails on the new state. -/
theorem rotateRefreshSession_one_time_use_witness :
    findSessionByRefreshHash [exSession] (exHash "raw") = some exSession
      ∧ truthyInt exSession.revokedAt = false
      ∧ (rotateRefreshSession exHash "new1" 500 501 { sessions := [exSession], nextId := 2 } "raw").1
          = some { userId := 7, refreshToken := "new1", expiresAt := 501 + thirtyDaysMs }
      ∧ (rotateRefreshSession exHash "new2" 600 601
            (rotateRefreshSession exHash "new1" 500 501
              { sessions := [exSession], nextId := 2 } "raw").2 "raw").1 = none := by
  have hd := (rotateRefreshSession_one_time_use exHash "new1" 500 501
      { sessions := [exSession], nextId := 2 } "raw").2.2.2 exSession rfl rfl
      (by decide) (by decide)
  exact ⟨rfl, rfl, hd.1, hd.2.2 "new2" 600 601⟩

/- ===================== C8 ===================== -/

/-- The Boolean pair comparison agrees with the lexicographic order on
`(agent_id, service)`. -/
theorem pairLe_iff (a b : String × String) :
    pairLe a b = true ↔ (a.1 < b.1 ∨ (a.1 = b.1 ∧ a.2 ≤ b.2)) := by
  simp [pairLe]

/-- The pair comparison is transitive. -/
theorem pairLe_trans (a b c : String × String)
    (h1 : pairLe a b = true) (h2 : pairLe b c = true) : pairLe a c = true := by
  rw [pairLe_iff] at h1 h2 ⊢
  rcases h1 with h | ⟨he, hle⟩
  · rcases h2 with h' | ⟨he', _⟩
    · exact Or.inl (lt_trans h h')
    · exact Or.inl (he' ▸ h)
  · rcases h2 with h' | ⟨he', hle'⟩
    · exact Or.inl (he ▸ h')
    · exact Or.inr ⟨he.trans he', le_trans hle hle'⟩
/-- The pair comparison is total. -/
theorem pairLe_total (a b : String × String) :
    (pairLe a b || pairLe b a) = true := by
  rw [Bool.or_eq_true, pairLe_iff, pairLe_iff]
  rcases lt_trichotomy a.1 b.1 with h | h | h
  · exact Or.inl (Or.inl h)
  · rcases le_total a.2 b.2 with h2 | h2
    · exact Or.inl (Or.inr ⟨h, h2⟩)
    · exact Or.inr (Or.inr ⟨h.symm, h2⟩)
  · exact Or.inr (Or.inl h)

/-- C8.  `listConnections(userId, workspaceId)` returns only
`(agentId, service)` pairs coming from rows of exactly that user and
workspace whose stored refresh token is neither NULL nor empty, and the
returned list is ordered by `agentId` ascending then `service`
ascending. -/
theorem listConnections_scoped_and_sorted :
    ∀ (db : List TokenRow) (userId workspaceId : Nat),
      (∀ p ∈ listConnections db userId workspaceId,
          ∃ r ∈ db, r.userId = userId ∧ r.workspaceId = workspaceId
            ∧ (∃ s : String, r.refreshToken = some s ∧ s ≠ "")
            ∧ p = (r.agentId, r.service))
        ∧ (listConnections db userId workspaceId).Pairwise
            (fun a b => a.1 < b.1 ∨ (a.1 = b.1 ∧ a.2 ≤ b.2)) := by
  intro db userId workspaceId
  constructor
  · intro p hp
    have h1 := List.mem_dedup.mp (List.mem_mergeSort.mp hp)
    obtain ⟨r, hrf, hpr⟩ := List.mem_map.mp h1
    obtain ⟨hrdb, hcond⟩ := List.mem_filter.mp hrf
    simp only [Bool.and_eq_true, beq_iff_eq] at hcond
    refine ⟨r, hrdb, hcond.1.1, hcond.1.2, ?_, hpr.symm⟩
    cases hrt : r.refreshToken with
    | none =>
      rw [hrt] at hcond
      simp [truthy] at hcond
    | some s =>
      refine ⟨s, rfl, ?_⟩
      have := hcond.2
      rw [hrt] at this
      simpa [truthy] using this
  · exact (List.sorted_mergeSort pairLe_trans pairLe_total _).imp
      fun h => (pairLe_iff _ _).mp h

/-- Witness for C8: on a one-row table the returned pair is traced back
to its row. -/
theorem listConnections_scoped_and_sorted_witness :
    ("A", "drive") ∈ listConnections [exRow] 1 10
      ∧ ∃ r ∈ [exRow], r.userId = 1 ∧ r.workspaceId = 10
          ∧ (∃ s : String, r.refreshToken = some s ∧ s ≠ "")
          ∧ (("A", "drive") : String × String) = (r.agentId, r.service) :=
  have hp : ("A", "drive") ∈ listConnections [exRow] 1 10 :=
    List.mem_mergeSort.mpr (by decide)
  ⟨hp, (listConnections_scoped_and_sorted [exRow] 1 10).1 ("A", "drive") hp⟩

/- ===================== C2 ===================== -/

/-- Unfolding of one suffix check: hostname ends with `.<suffix>` and
the remainder is a non-empty dot-free label. -/
theorem suffixAccepts_iff (hostname suffix : String) :
    suffixAccepts hostname suffix = true ↔
      (strEndsWith hostname ("." ++ suffix) = true
        ∧ strDropRight hostname ("." ++ suffix).length ≠ ""
        ∧ strContainsDot (strDropRight hostname ("." ++ suffix).length) = false) := by
  simp only [suffixAccepts]
  cases h1 : strEndsWith hostname ("." ++ suffix) with
  | false => simp [h1]
  | true =>
    cases h2 : (strDropRight hostname ("." ++ suffix).length == "") with
    | true =>
      have hsub : strDropRight hostname (".".length + suffix.length) = "" := by
        simpa [String.length_append] using beq_iff_eq.mp h2
      simp [h1, hsub]
    | false =>
      cases h3 : strContainsDot (strDropRight hostname ("." ++ suffix).length) with
      | false => simp_all
      | true => simp_all

/-- The example configuration of the spec's acceptance tests: no exact
origin allowlisted, one allowed host suffix. -/
def cfgSuffixOnly : ReturnToConfig :=
  { allowedReturnOrigins := [], allowedReturnHostSuffixes := ["dima-ai.com"] }

/-- Parsed `https://dev-blana.dima-ai.com`. -/
def uDev : URLParts :=
  { protocol := "https:", hostname := "dev-blana.dima-ai.com", port := "",
    origin := "https://dev-blana.dima-ai.com" }

/-- Parsed `https://a.b.dima-ai.com`. -/
def uAB : URLParts :=
  { protocol := "https:", hostname := "a.b.dima-ai.com", port := "",
    origin := "https://a.b.dima-ai.com" }

/-- Parsed `http://dev-blana.dima-ai.com`. -/
def uHttp : URLParts :=
  { protocol := "http:", hostname := "dev-blana.dima-ai.com", port := "",
    origin := "http://dev-blana.dima-ai.com" }

/-- C2.  When the URL's origin is not in the allowed-origin list and
host suffixes are configured, `validateReturnTo` accepts exactly the
HTTPS URLs on the default port whose hostname ends in `.<suffix>` for a
configured suffix with a single non-empty dot-free label before it; in
particular `https://dev-blana.dima-ai.com` is accepted under suffix
`dima-ai.com` while `https://a.b.dima-ai.com` and
`http://dev-blana.dima-ai.com` are rejected. -/
theorem validateReturnTo_suffix_rule :
    (∀ (cfg : ReturnToConfig) (u : URLParts) (returnTo : String),
        cfg.allowedReturnHostSuffixes ≠ [] →
        cfg.allowedReturnOrigins.contains u.origin = false →
        returnTo ≠ "" →
        (validateReturnTo cfg returnTo (some u) = some returnTo ↔
          (u.protocol = "https:" ∧ (u.port = "" ∨ u.port = "443")
            ∧ ∃ suffix ∈ cfg.allowedReturnHostSuffixes,
                strEndsWith (strToLower u.hostname) ("." ++ suffix) = true
                  ∧ strDropRight (strToLower u.hostname) ("." ++ suffix).length ≠ ""
                  ∧ strContainsDot
                      (strDropRight (strToLower u.hostname) ("." ++ suffix).length) = false)))
      ∧ validateReturnTo cfgSuffixOnly "https://dev-blana.dima-ai.com" (some uDev)
          = some "https://dev-blana.dima-ai.com"
      ∧ validateReturnTo cfgSuffixOnly "https://a.b.dima-ai.com" (some uAB) = none
      ∧ validateReturnTo cfgSuffixOnly "http://dev-blana.dima-ai.com" (some uHttp) = none := by
  refine ⟨?_, by decide, by decide, by decide⟩
  intro cfg u returnTo hsuf horig hrt
  have hne : (returnTo == "") = false := by simpa using hrt
  have hlen : decide (0 < cfg.allowedReturnHostSuffixes.length) = true := by
    simpa [List.length_pos] using hsuf
  simp only [validateReturnTo, hne, Bool.false_eq_true, if_false, horig, hlen, Bool.or_true,
    Bool.not_true]
  by_cases hp : u.protocol = "https:"
  · have hpb : (u.protocol != "https:") = false := by simpa using hp
    simp only [hpb, Bool.false_eq_true, if_false]
    by_cases hport : u.port = "" ∨ u.port = "443"
    · have hportb : (u.port != "" && u.port != "443") = false := by
        rcases hport with h | h <;> simp [h]
      simp only [hportb, Bool.false_eq_true, if_false]
      cases hany : cfg.allowedReturnHostSuffixes.any (suffixAccepts (strToLower u.hostname)) with
      | true =>
        simp only [if_true]
        obtain ⟨suffix, hmem, hacc⟩ := List.any_eq_true.mp hany
        constructor
        · intro _
          exact ⟨hp, hport, suffix, hmem, (suffixAccepts_iff _ _).mp hacc⟩
        · intro _
          trivial
      | false =>
        simp only [Bool.false_eq_true, if_false]
        constructor
        · intro hcontra
          cases hcontra
        · rintro ⟨-, -, suffix, hmem, hconds⟩
          have : cfg.allowedReturnHostSuffixes.any (suffixAccepts (strToLower u.hostname)) = true :=
            List.any_eq_true.mpr ⟨suffix, hmem, (suffixAccepts_iff _ _).mpr hconds⟩
          rw [this] at hany
          cases hany
    · have h1 : (u.port != "") = true := by
        have := not_or.mp hport
        simpa using this.1
      have h2 : (u.port != "443") = true := by
        have := not_or.mp hport
        simpa using this.2
      simp only [h1, h2, Bool.and_self, if_true]
      constructor
      · intro hcontra
        cases hcontra
      · rintro ⟨-, hc, -⟩
        exact absurd hc hport
  · have hpb : (u.protocol != "https:") = true := by simpa using hp
    simp only [hpb, if_true]
    constructor
    · intro hcontra
      cases hcontra
    · rintro ⟨hc, -⟩
      exact absurd hc hp

/-- Witness for C2: the general suffix rule applied to the accepted
example URL. -/
theorem validateReturnTo_suffix_rule_witness :
    cfgSuffixOnly.allowedReturnHostSuffixes ≠ []
      ∧ cfgSuffixOnly.allowedReturnOrigins.contains uDev.origin = false
      ∧ ("https://dev-blana.dima-ai.com" : String) ≠ ""
      ∧ validateReturnTo cfgSuffixOnly "https://dev-blana.dima-ai.com" (some uDev)
          = some "https://dev-blana.dima-ai.com" :=
  ⟨by decide, by decide, by decide,
    (validateReturnTo_suffix_rule.1 cfgSuffixOnly uDev "https://dev-blana.dima-ai.com"
        (by decide) (by decide) (by decide)).mpr (by decide)⟩

end GoogleAuthService
